import Mathlib

/-!
Verification of the OpenStack orphan-resource reconciliation engine of
im-deploy (src/im-deploy/src/openstack.rs), the connection-strategy
resolution (src/im-deploy/src/domain/connection.rs) and the terraform
output extraction / kubeconfig rewrite (src/im-deploy/src/commands.rs).

The HTTP layer is abstracted by explicit response values: every list
request yields an `ApiResult`, every delete request a `DeleteResult`,
and every load-balancer status poll a `PollResponse`.  Wall-clock time
in `wait_for_lb_deletion` is abstracted by the finite list of poll
responses the 120s timeout budget allows: exhausting the list is the
timeout.  Requests issued by the engine are recorded as `Event`s, in
issue order.
-/

namespace ImDeploy

/-! ## Data model (the deserialization structs of openstack.rs) -/

structure LoadBalancer where
  id : String
  name : String
  vip_network_id : String
  provisioning_status : String
deriving DecidableEq, Repr

structure FloatingIP where
  id : String
  floating_ip_address : String
  status : String
  port_id : Option String
deriving DecidableEq, Repr

structure Port where
  id : String
  name : String
  device_owner : String
  network_id : String
deriving DecidableEq, Repr

structure SecurityGroup where
  id : String
  name : String
  description : String
deriving DecidableEq, Repr

/-- Outcome of a list (GET) request followed by body parsing. -/
inductive ApiResult (α : Type) where
  | transportErr
  | httpFail (status : Nat)
  | parseFail
  | ok (val : α)

/-- Outcome of a single DELETE request. -/
inductive DeleteResult where
  | ok (status : Nat)
  | err
deriving DecidableEq, Repr

/-- reqwest `StatusCode::is_success`: 2xx. -/
def isSuccessStatus (s : Nat) : Bool := 200 ≤ s && s < 300

/-- The delete-accepted guard used by every delete loop:
`resp.status().is_success() || resp.status().as_u16() == 404`. -/
def deleteAccepted : DeleteResult → Bool
  | .ok s => isSuccessStatus s || s == 404
  | .err => false

/-- Requests issued against the OpenStack APIs, in issue order. -/
inductive Event where
  | listLBs
  | deleteLB (id : String)
  | pollLB (id : String)
  | listFips
  | deleteFip (id : String)
  | listPorts
  | deletePort (id : String)
  | listSGs
  | deleteSG (id : String)
deriving DecidableEq, Repr

/-- Result of one cleanup function: the requests it issued, whether it
returned `Ok`, and its deleted / failed counters. -/
structure RunResult where
  trace : List Event
  ok : Bool
  deleted : Nat
  failed : Nat

/-! ## String primitives

Kernel-reducible models of the Rust string operations used by the
engine (`str::starts_with`, `str::ends_with`, `str::to_lowercase` on
the ASCII statuses the APIs return, `str::contains`), over the
character lists backing `String`. -/

def strStartsWith (s pat : String) : Bool := pat.data.isPrefixOf s.data

def strEndsWith (s pat : String) : Bool :=
  pat.data.reverse.isPrefixOf s.data.reverse

def charToLower (c : Char) : Char :=
  if 65 ≤ c.toNat ∧ c.toNat ≤ 90 then Char.ofNat (c.toNat + 32) else c

def strToLower (s : String) : String := ⟨s.data.map charToLower⟩

/-! ## Load balancer classification and deletion (cleanup_loadbalancers) -/

/-- The filter of `cleanup_loadbalancers` (openstack.rs:316-327): on the
cluster network, Kubernetes-created name, not Terraform-managed. -/
def lbCandidateFilter (networkId : String) (lb : LoadBalancer) : Bool :=
  lb.vip_network_id == networkId
    && (strStartsWith lb.name "kube_service_" || strStartsWith lb.name "kube-")
    && !(strEndsWith lb.name "-lb")

/-- The deletion candidate set of `cleanup_loadbalancers`. -/
def lbDeletionCandidates (lbs : List LoadBalancer) (networkId : String) :
    List LoadBalancer :=
  lbs.filter (lbCandidateFilter networkId)

/-- One GET of the load balancer in `wait_for_lb_deletion`
(openstack.rs:402-407): transport error, or a status code together with
the parsed `loadbalancer.provisioning_status` field when present. -/
inductive PollResponse where
  | err
  | resp (status : Nat) (prov : Option String)
deriving DecidableEq, Repr

/-- A poll observation is terminal when the GET returns 404, or returns
success with `provisioning_status` equal to `DELETED` or `ERROR`
(openstack.rs:409-424). -/
def pollTerminal : PollResponse → Bool
  | .err => false
  | .resp s prov =>
      s == 404
        || (isSuccessStatus s && (prov == some "DELETED" || prov == some "ERROR"))

/-- `wait_for_lb_deletion` (openstack.rs:390-434): poll until a terminal
observation (`true`) or until the timeout budget — the poll list — is
exhausted (`false`, the `Err("Timeout waiting for LB deletion")` case).
Returns the poll events issued and the outcome. -/
def wait_for_lb_deletion (lbId : String) : List PollResponse → List Event × Bool
  | [] => ([], false)
  | p :: rest =>
      if pollTerminal p then ([Event.pollLB lbId], true)
      else
        let r := wait_for_lb_deletion lbId rest
        (Event.pollLB lbId :: r.1, r.2)

/-- Body of the per-candidate loop of `cleanup_loadbalancers`
(openstack.rs:343-376): issue the cascade delete; on accepted
(2xx or 404) poll for completion, counting a timed-out poll as a
failure; on any other response or transport error count a failure. -/
def lbDeleteStep (del : String → DeleteResult)
    (polls : String → List PollResponse)
    (acc : List Event × Nat × Nat) (lb : LoadBalancer) :
    List Event × Nat × Nat :=
  match acc with
  | (tr, d, f) =>
    match del lb.id with
    | .ok s =>
        if isSuccessStatus s || s == 404 then
          let w := wait_for_lb_deletion lb.id (polls lb.id)
          if w.2 then (tr ++ Event.deleteLB lb.id :: w.1, d + 1, f)
          else (tr ++ Event.deleteLB lb.id :: w.1, d, f + 1)
        else (tr ++ [Event.deleteLB lb.id], d, f + 1)
    | .err => (tr ++ [Event.deleteLB lb.id], d, f + 1)

/-- `cleanup_loadbalancers` (openstack.rs:290-388).  A transport error
or parse failure of the list request propagates as `Err` (`?`); a
non-success list status only logs a warning and returns `Ok`; otherwise
every candidate is processed and the function returns `Ok`. -/
def cleanup_loadbalancers (lbList : ApiResult (List LoadBalancer))
    (del : String → DeleteResult) (polls : String → List PollResponse)
    (networkId : String) : RunResult :=
  match lbList with
  | .transportErr => ⟨[Event.listLBs], false, 0, 0⟩
  | .httpFail _ => ⟨[Event.listLBs], true, 0, 0⟩
  | .parseFail => ⟨[Event.listLBs], false, 0, 0⟩
  | .ok lbs =>
      let cands := lbDeletionCandidates lbs networkId
      let r := cands.foldl (lbDeleteStep del polls) ([], 0, 0)
      ⟨Event.listLBs :: r.1, true, r.2.1, r.2.2⟩

/-! ## The simple delete loops (floating IPs, ports, security groups) -/

/-- Body of the delete loop shared (textually repeated) by
`cleanup_floating_ips`, `cleanup_loadbalancer_ports`,
`cleanup_octavia_ports` and `cleanup_security_groups`: issue the
delete; on 2xx or 404 count deleted, otherwise count failed, and in
every case continue with the next candidate. -/
def simpleDeleteStep (mkEvent : String → Event) (del : String → DeleteResult)
    (acc : List Event × Nat × Nat) (rid : String) : List Event × Nat × Nat :=
  match acc with
  | (tr, d, f) =>
      if deleteAccepted (del rid) then (tr ++ [mkEvent rid], d + 1, f)
      else (tr ++ [mkEvent rid], d, f + 1)

def runDeleteLoop (mkEvent : String → Event) (del : String → DeleteResult)
    (ids : List String) : List Event × Nat × Nat :=
  ids.foldl (simpleDeleteStep mkEvent del) ([], 0, 0)

/-- The orphaned floating IP filter of `cleanup_floating_ips`
(openstack.rs:459-463): status `down` (case-insensitive) or no port. -/
def fipOrphanFilter (fip : FloatingIP) : Bool :=
  strToLower fip.status == "down" || fip.port_id.isNone

/-- `cleanup_floating_ips` (openstack.rs:436-505). -/
def cleanup_floating_ips (fipList : ApiResult (List FloatingIP))
    (del : String → DeleteResult) : RunResult :=
  match fipList with
  | .transportErr => ⟨[Event.listFips], false, 0, 0⟩
  | .httpFail _ => ⟨[Event.listFips], true, 0, 0⟩
  | .parseFail => ⟨[Event.listFips], false, 0, 0⟩
  | .ok fips =>
      let cands := fips.filter fipOrphanFilter
      let r := runDeleteLoop Event.deleteFip del (cands.map (·.id))
      ⟨Event.listFips :: r.1, true, r.2.1, r.2.2⟩

/-- The Octavia ownership filter (openstack.rs:530-534 and 707-708):
device owner starts with `Octavia` or `octavia`. -/
def octaviaOwnerFilter (p : Port) : Bool :=
  strStartsWith p.device_owner "Octavia" || strStartsWith p.device_owner "octavia"

/-- `cleanup_loadbalancer_ports` (openstack.rs:507-576): delete every
Octavia-owned port, globally (no network filter). -/
def cleanup_loadbalancer_ports (portList : ApiResult (List Port))
    (del : String → DeleteResult) : RunResult :=
  match portList with
  | .transportErr => ⟨[Event.listPorts], false, 0, 0⟩
  | .httpFail _ => ⟨[Event.listPorts], true, 0, 0⟩
  | .parseFail => ⟨[Event.listPorts], false, 0, 0⟩
  | .ok ports =>
      let cands := ports.filter octaviaOwnerFilter
      let r := runDeleteLoop Event.deletePort del (cands.map (·.id))
      ⟨Event.listPorts :: r.1, true, r.2.1, r.2.2⟩

/-- Rust `String::contains` (substring test), on character lists. -/
def listContains (pat : List Char) : List Char → Bool
  | [] => pat.isPrefixOf []
  | c :: rest => pat.isPrefixOf (c :: rest) || listContains pat rest

def strContains (s pat : String) : Bool := listContains pat.data s.data

/-- The protected Terraform load-balancer ids of `cleanup_octavia_ports`
(openstack.rs:671-681): filled only when the load-balancer list call
returns success AND its body parses; left empty otherwise. -/
def terraformLbIds (lbList : ApiResult (List LoadBalancer))
    (networkId : String) : List String :=
  match lbList with
  | .ok lbs =>
      (lbs.filter (fun lb =>
        lb.vip_network_id == networkId && strEndsWith lb.name "-lb")).map (·.id)
  | _ => []

/-- The port filter of `cleanup_octavia_ports` (openstack.rs:704-723):
Octavia-owned, and the port name references no protected id. -/
def octaviaPortCandidateFilter (tfIds : List String) (p : Port) : Bool :=
  octaviaOwnerFilter p && !(tfIds.any (fun tfId => strContains p.name tfId))

/-- `cleanup_octavia_ports` (openstack.rs:653-772).  A transport error
of the load-balancer list propagates as `Err` (`?` on `send()`,
line 669) before the port list is even requested; a non-success status
or parse failure of that list only leaves the protected set empty. -/
def cleanup_octavia_ports (lbList : ApiResult (List LoadBalancer))
    (portList : ApiResult (List Port)) (del : String → DeleteResult)
    (networkId : String) : RunResult :=
  match lbList with
  | .transportErr => ⟨[Event.listLBs], false, 0, 0⟩
  | _ =>
    let tfIds := terraformLbIds lbList networkId
    match portList with
    | .transportErr => ⟨[Event.listLBs, Event.listPorts], false, 0, 0⟩
    | .httpFail _ => ⟨[Event.listLBs, Event.listPorts], true, 0, 0⟩
    | .parseFail => ⟨[Event.listLBs, Event.listPorts], false, 0, 0⟩
    | .ok ports =>
        let cands := ports.filter (octaviaPortCandidateFilter tfIds)
        let r := runDeleteLoop Event.deletePort del (cands.map (·.id))
        ⟨Event.listLBs :: Event.listPorts :: r.1, true, r.2.1, r.2.2⟩

/-- The security-group filter of `cleanup_security_groups`
(openstack.rs:797-814). -/
def sgOrphanFilter (clusterName : String) (sg : SecurityGroup) : Bool :=
  strStartsWith sg.name "lb-sg-"
    || sg.name == clusterName ++ "-server"
    || sg.name == clusterName ++ "-agent"

/-- `cleanup_security_groups` (openstack.rs:774-868).  A 409 response is
reported as a soft warning but counted in `failed`, like every other
non-2xx/non-404 outcome; the function returns `Ok` regardless. -/
def cleanup_security_groups (sgList : ApiResult (List SecurityGroup))
    (del : String → DeleteResult) (clusterName : String) : RunResult :=
  match sgList with
  | .transportErr => ⟨[Event.listSGs], false, 0, 0⟩
  | .httpFail _ => ⟨[Event.listSGs], true, 0, 0⟩
  | .parseFail => ⟨[Event.listSGs], false, 0, 0⟩
  | .ok sgs =>
      let cands := sgs.filter (sgOrphanFilter clusterName)
      let r := runDeleteLoop Event.deleteSG del (cands.map (·.id))
      ⟨Event.listSGs :: r.1, true, r.2.1, r.2.2⟩

/-! ## The destroy reconciliation run -/

/-- All API responses one reconciliation run can observe. -/
structure Oracle where
  lbList : ApiResult (List LoadBalancer)
  lbDelete : String → DeleteResult
  lbPolls : String → List PollResponse
  lbList2 : ApiResult (List LoadBalancer)
  netPortList : ApiResult (List Port)
  portList : ApiResult (List Port)
  portDelete : String → DeleteResult
  fipList : ApiResult (List FloatingIP)
  fipDelete : String → DeleteResult
  sgList : ApiResult (List SecurityGroup)
  sgDelete : String → DeleteResult

/-- `cleanup_before_destroy` (openstack.rs:248-261): load balancers,
then (if that returned `Ok`) the Octavia ports on the network. -/
def cleanup_before_destroy (o : Oracle) (networkId : String) : RunResult :=
  let r1 := cleanup_loadbalancers o.lbList o.lbDelete o.lbPolls networkId
  if r1.ok then
    let r2 := cleanup_octavia_ports o.lbList2 o.netPortList o.portDelete networkId
    ⟨r1.trace ++ r2.trace, r2.ok, r1.deleted + r2.deleted, r1.failed + r2.failed⟩
  else r1

/-- `cleanup_after_destroy` (openstack.rs:263-274): floating IPs, then
load-balancer ports, then — last by design — security groups, each step
short-circuiting on `Err` (`?`). -/
def cleanup_after_destroy (o : Oracle) (clusterName : String) : RunResult :=
  let r1 := cleanup_floating_ips o.fipList o.fipDelete
  if r1.ok then
    let r2 := cleanup_loadbalancer_ports o.portList o.portDelete
    if r2.ok then
      let r3 := cleanup_security_groups o.sgList o.sgDelete clusterName
      ⟨r1.trace ++ r2.trace ++ r3.trace, r3.ok,
        r1.deleted + r2.deleted + r3.deleted, r1.failed + r2.failed + r3.failed⟩
    else ⟨r1.trace ++ r2.trace, false, r1.deleted + r2.deleted, r1.failed + r2.failed⟩
  else r1

/-- The requests of one full destroy run: the destroy command
(commands.rs:347, commands.rs:427) runs `cleanup_before_destroy`, then
terraform destroy (no OpenStack API requests), then
`cleanup_after_destroy`, the latter even when the former failed. -/
def fullDestroyTrace (o : Oracle) (networkId clusterName : String) :
    List Event :=
  (cleanup_before_destroy o networkId).trace
    ++ (cleanup_after_destroy o clusterName).trace

/-! ## Event classification -/

def isLBDelete : Event → Bool
  | .deleteLB _ => true
  | _ => false

def isPortDelete : Event → Bool
  | .deletePort _ => true
  | _ => false

def isFipDelete : Event → Bool
  | .deleteFip _ => true
  | _ => false

def isSGDelete : Event → Bool
  | .deleteSG _ => true
  | _ => false

/-- Some floating-IP delete request strictly precedes some port delete
request in the trace. -/
def existsFipDeleteBeforePortDelete : List Event → Bool
  | [] => false
  | e :: rest =>
      (isFipDelete e && rest.any isPortDelete)
        || existsFipDeleteBeforePortDelete rest

/-- Some security-group delete request strictly precedes some
load-balancer or port delete request in the trace. -/
def existsSGDeleteBeforeLBOrPortDelete : List Event → Bool
  | [] => false
  | e :: rest =>
      (isSGDelete e && rest.any (fun x => isLBDelete x || isPortDelete x))
        || existsSGDeleteBeforeLBOrPortDelete rest

/-- Events the load-balancer deletion phase can issue. -/
def lbPhase : Event → Bool
  | .listLBs => true
  | .deleteLB _ => true
  | .pollLB _ => true
  | _ => false

/-- Events a port deletion phase can issue (`cleanup_octavia_ports`
also lists load balancers first). -/
def portPhase : Event → Bool
  | .listLBs => true
  | .listPorts => true
  | .deletePort _ => true
  | _ => false

/-- Events the floating-IP deletion phase can issue. -/
def fipPhase : Event → Bool
  | .listFips => true
  | .deleteFip _ => true
  | _ => false

/-- Events the security-group deletion phase can issue. -/
def sgPhase : Event → Bool
  | .listSGs => true
  | .deleteSG _ => true
  | _ => false

/-! ## Trace shape lemmas -/

/-- The events one candidate contributes in `cleanup_loadbalancers`. -/
def lbStepEvents (del : String → DeleteResult)
    (polls : String → List PollResponse) (lb : LoadBalancer) : List Event :=
  match del lb.id with
  | .ok s =>
      if isSuccessStatus s || s == 404 then
        Event.deleteLB lb.id :: (wait_for_lb_deletion lb.id (polls lb.id)).1
      else [Event.deleteLB lb.id]
  | .err => [Event.deleteLB lb.id]

theorem lbDeleteStep_trace (del : String → DeleteResult)
    (polls : String → List PollResponse) (acc : List Event × Nat × Nat)
    (lb : LoadBalancer) :
    (lbDeleteStep del polls acc lb).1 = acc.1 ++ lbStepEvents del polls lb := by
  obtain ⟨tr, d, f⟩ := acc
  simp only [lbDeleteStep, lbStepEvents]
  cases del lb.id with
  | ok s =>
      by_cases h : (isSuccessStatus s || s == 404) = true
      · simp only [h, if_true]
        by_cases hw : (wait_for_lb_deletion lb.id (polls lb.id)).2 = true
        · simp [hw]
        · simp [hw]
      · simp [h]
  | err => simp

theorem lbDeleteStep_count (del : String → DeleteResult)
    (polls : String → List PollResponse) (acc : List Event × Nat × Nat)
    (lb : LoadBalancer) :
    (lbDeleteStep del polls acc lb).2.1 + (lbDeleteStep del polls acc lb).2.2
      = acc.2.1 + acc.2.2 + 1 := by
  obtain ⟨tr, d, f⟩ := acc
  simp only [lbDeleteStep]
  cases del lb.id with
  | ok s =>
      by_cases h : (isSuccessStatus s || s == 404) = true
      · simp only [h, if_true]
        by_cases hw : (wait_for_lb_deletion lb.id (polls lb.id)).2 = true
        · simp [hw]; omega
        · simp [hw]; omega
      · simp [h]; omega
  | err => simp; omega

theorem lbLoop_trace (del : String → DeleteResult)
    (polls : String → List PollResponse) (cands : List LoadBalancer) :
    ∀ acc : List Event × Nat × Nat,
      (cands.foldl (lbDeleteStep del polls) acc).1
        = acc.1 ++ cands.flatMap (lbStepEvents del polls) := by
  induction cands with
  | nil => intro acc; simp
  | cons lb rest ih =>
      intro acc
      rw [List.foldl_cons, ih, lbDeleteStep_trace]
      simp [List.append_assoc]

theorem lbLoop_count (del : String → DeleteResult)
    (polls : String → List PollResponse) (cands : List LoadBalancer) :
    ∀ acc : List Event × Nat × Nat,
      (cands.foldl (lbDeleteStep del polls) acc).2.1
          + (cands.foldl (lbDeleteStep del polls) acc).2.2
        = acc.2.1 + acc.2.2 + cands.length := by
  induction cands with
  | nil => intro acc; simp
  | cons lb rest ih =>
      intro acc
      rw [List.foldl_cons, ih, lbDeleteStep_count]
      simp [List.length_cons]
      omega

theorem simpleStep_trace (mk : String → Event) (del : String → DeleteResult)
    (acc : List Event × Nat × Nat) (rid : String) :
    (simpleDeleteStep mk del acc rid).1 = acc.1 ++ [mk rid] := by
  obtain ⟨tr, d, f⟩ := acc
  simp only [simpleDeleteStep]
  by_cases h : deleteAccepted (del rid) = true
  · simp [h]
  · simp [h]

theorem simpleStep_count (mk : String → Event) (del : String → DeleteResult)
    (acc : List Event × Nat × Nat) (rid : String) :
    (simpleDeleteStep mk del acc rid).2.1 + (simpleDeleteStep mk del acc rid).2.2
      = acc.2.1 + acc.2.2 + 1 := by
  obtain ⟨tr, d, f⟩ := acc
  simp only [simpleDeleteStep]
  by_cases h : deleteAccepted (del rid) = true
  · simp [h]; omega
  · simp [h]; omega

theorem simpleLoop_trace (mk : String → Event) (del : String → DeleteResult)
    (ids : List String) :
    ∀ acc : List Event × Nat × Nat,
      (ids.foldl (simpleDeleteStep mk del) acc).1 = acc.1 ++ ids.map mk := by
  induction ids with
  | nil => intro acc; simp
  | cons rid rest ih =>
      intro acc
      rw [List.foldl_cons, ih, simpleStep_trace]
      simp [List.append_assoc]

theorem simpleLoop_count (mk : String → Event) (del : String → DeleteResult)
    (ids : List String) :
    ∀ acc : List Event × Nat × Nat,
      (ids.foldl (simpleDeleteStep mk del) acc).2.1
          + (ids.foldl (simpleDeleteStep mk del) acc).2.2
        = acc.2.1 + acc.2.2 + ids.length := by
  induction ids with
  | nil => intro acc; simp
  | cons rid rest ih =>
      intro acc
      rw [List.foldl_cons, ih, simpleStep_count]
      simp [List.length_cons]
      omega

theorem runDeleteLoop_trace (mk : String → Event) (del : String → DeleteResult)
    (ids : List String) : (runDeleteLoop mk del ids).1 = ids.map mk := by
  rw [runDeleteLoop, simpleLoop_trace]
  rfl

theorem runDeleteLoop_count (mk : String → Event) (del : String → DeleteResult)
    (ids : List String) :
    (runDeleteLoop mk del ids).2.1 + (runDeleteLoop mk del ids).2.2
      = ids.length := by
  rw [runDeleteLoop, simpleLoop_count]
  simp

/-! ## Phase lemmas -/

theorem all_map_of (p : Event → Bool) (mk : String → Event)
    (h : ∀ s, p (mk s) = true) (ids : List String) :
    (ids.map mk).all p = true := by
  induction ids with
  | nil => rfl
  | cons a t ih => simp [h, ih]

theorem all_bind_of {α : Type} (p : Event → Bool) (f : α → List Event)
    (l : List α) (h : ∀ a, (f a).all p = true) :
    (l.flatMap f).all p = true := by
  induction l with
  | nil => rfl
  | cons a t ih => simp only [List.flatMap_cons, List.all_append, ih, h,
      Bool.and_true]

theorem wait_events_all (lbId : String) (polls : List PollResponse) :
    (wait_for_lb_deletion lbId polls).1.all lbPhase = true := by
  induction polls with
  | nil => rfl
  | cons p rest ih =>
      simp only [wait_for_lb_deletion]
      by_cases h : pollTerminal p = true
      · simp [h, lbPhase]
      · simp [h, lbPhase, ih]

theorem lbStepEvents_all (del : String → DeleteResult)
    (polls : String → List PollResponse) (lb : LoadBalancer) :
    (lbStepEvents del polls lb).all lbPhase = true := by
  simp only [lbStepEvents]
  cases del lb.id with
  | ok s =>
      by_cases h : (isSuccessStatus s || s == 404) = true
      · simp [h, lbPhase, wait_events_all]
      · simp [h, lbPhase]
  | err => simp [lbPhase]

theorem cleanup_loadbalancers_trace_all (lbList : ApiResult (List LoadBalancer))
    (del : String → DeleteResult) (polls : String → List PollResponse)
    (networkId : String) :
    (cleanup_loadbalancers lbList del polls networkId).trace.all lbPhase
      = true := by
  cases lbList with
  | transportErr => rfl
  | httpFail s => rfl
  | parseFail => rfl
  | ok lbs =>
      simp only [cleanup_loadbalancers, lbLoop_trace, List.nil_append,
        List.all_cons, Bool.and_eq_true]
      exact ⟨rfl, all_bind_of lbPhase _ _ (lbStepEvents_all del polls)⟩

theorem cleanup_floating_ips_trace_all (fipList : ApiResult (List FloatingIP))
    (del : String → DeleteResult) :
    (cleanup_floating_ips fipList del).trace.all fipPhase = true := by
  cases fipList with
  | transportErr => rfl
  | httpFail s => rfl
  | parseFail => rfl
  | ok fips =>
      simp only [cleanup_floating_ips, runDeleteLoop_trace, List.all_cons, Bool.and_eq_true]
      exact ⟨rfl, all_map_of fipPhase Event.deleteFip (fun _ => rfl) _⟩

theorem cleanup_loadbalancer_ports_trace_all (portList : ApiResult (List Port))
    (del : String → DeleteResult) :
    (cleanup_loadbalancer_ports portList del).trace.all portPhase = true := by
  cases portList with
  | transportErr => rfl
  | httpFail s => rfl
  | parseFail => rfl
  | ok ports =>
      simp only [cleanup_loadbalancer_ports, runDeleteLoop_trace, List.all_cons, Bool.and_eq_true]
      exact ⟨rfl, all_map_of portPhase Event.deletePort (fun _ => rfl) _⟩

theorem cleanup_octavia_ports_trace_all (lbList : ApiResult (List LoadBalancer))
    (portList : ApiResult (List Port)) (del : String → DeleteResult)
    (networkId : String) :
    (cleanup_octavia_ports lbList portList del networkId).trace.all portPhase
      = true := by
  cases lbList with
  | transportErr => rfl
  | httpFail s =>
      cases portList with
      | transportErr => rfl
      | httpFail t => rfl
      | parseFail => rfl
      | ok ports =>
          simp only [cleanup_octavia_ports, runDeleteLoop_trace, List.all_cons, Bool.and_eq_true]
          exact ⟨rfl, rfl, all_map_of portPhase Event.deletePort (fun _ => rfl) _⟩
  | parseFail =>
      cases portList with
      | transportErr => rfl
      | httpFail t => rfl
      | parseFail => rfl
      | ok ports =>
          simp only [cleanup_octavia_ports, runDeleteLoop_trace, List.all_cons, Bool.and_eq_true]
          exact ⟨rfl, rfl, all_map_of portPhase Event.deletePort (fun _ => rfl) _⟩
  | ok lbs =>
      cases portList with
      | transportErr => rfl
      | httpFail t => rfl
      | parseFail => rfl
      | ok ports =>
          simp only [cleanup_octavia_ports, runDeleteLoop_trace, List.all_cons, Bool.and_eq_true]
          exact ⟨rfl, rfl, all_map_of portPhase Event.deletePort (fun _ => rfl) _⟩

theorem cleanup_security_groups_trace_all
    (sgList : ApiResult (List SecurityGroup)) (del : String → DeleteResult)
    (clusterName : String) :
    (cleanup_security_groups sgList del clusterName).trace.all sgPhase
      = true := by
  cases sgList with
  | transportErr => rfl
  | httpFail s => rfl
  | parseFail => rfl
  | ok sgs =>
      simp only [cleanup_security_groups, runDeleteLoop_trace, List.all_cons, Bool.and_eq_true]
      exact ⟨rfl, all_map_of sgPhase Event.deleteSG (fun _ => rfl) _⟩

/-- The full destroy trace splits into five phase-homogeneous segments:
load balancers, pre-destroy Octavia ports, floating IPs, post-destroy
load-balancer ports, security groups. -/
theorem destroyTrace_phases (o : Oracle) (networkId clusterName : String) :
    ∃ t1 t2 t3 t4 t5 : List Event,
      fullDestroyTrace o networkId clusterName
          = t1 ++ t2 ++ t3 ++ t4 ++ t5
        ∧ t1.all lbPhase = true ∧ t2.all portPhase = true
        ∧ t3.all fipPhase = true ∧ t4.all portPhase = true
        ∧ t5.all sgPhase = true := by
  have hlb := cleanup_loadbalancers_trace_all o.lbList o.lbDelete o.lbPolls
    networkId
  have hoct := cleanup_octavia_ports_trace_all o.lbList2 o.netPortList
    o.portDelete networkId
  have hfip := cleanup_floating_ips_trace_all o.fipList o.fipDelete
  have hport := cleanup_loadbalancer_ports_trace_all o.portList o.portDelete
  have hsg := cleanup_security_groups_trace_all o.sgList o.sgDelete clusterName
  rw [fullDestroyTrace, cleanup_before_destroy, cleanup_after_destroy]
  by_cases h1 : (cleanup_loadbalancers o.lbList o.lbDelete o.lbPolls
      networkId).ok = true
  · by_cases h2 : (cleanup_floating_ips o.fipList o.fipDelete).ok = true
    · by_cases h3 : (cleanup_loadbalancer_ports o.portList o.portDelete).ok
          = true
      · refine ⟨_, _, _, _, _, ?_, hlb, hoct, hfip, hport, hsg⟩
        simp only [h1, h2, h3, if_true]
        simp [List.append_assoc]
      · refine ⟨_, _, _, _, [], ?_, hlb, hoct, hfip, hport, rfl⟩
        simp only [h1, h2, h3, if_true, if_false]
        simp [List.append_assoc]
    · refine ⟨_, _, _, [], [], ?_, hlb, hoct, hfip, rfl, rfl⟩
      simp only [h1, h2, if_true, if_false]
      simp [List.append_assoc]
  · by_cases h2 : (cleanup_floating_ips o.fipList o.fipDelete).ok = true
    · by_cases h3 : (cleanup_loadbalancer_ports o.portList o.portDelete).ok
          = true
      · refine ⟨_, [], _, _, _, ?_, hlb, rfl, hfip, hport, hsg⟩
        simp only [h1, h2, h3, if_true, if_false]
        simp [List.append_assoc]
      · refine ⟨_, [], _, _, [], ?_, hlb, rfl, hfip, hport, rfl⟩
        simp only [h1, h2, h3, if_true, if_false]
        simp [List.append_assoc]
    · refine ⟨_, [], _, [], [], ?_, hlb, rfl, hfip, rfl, rfl⟩
      simp only [h1, h2, if_false]
      simp [List.append_assoc]

/-! ## Ordering lemmas -/

theorem any_false_of_all_not (p : Event → Bool) (l : List Event)
    (h : l.all (fun e => !p e) = true) : l.any p = false := by
  induction l with
  | nil => rfl
  | cons e t ih =>
      simp only [List.all_cons, Bool.and_eq_true, Bool.not_eq_true'] at h
      simp [h.1, ih h.2]

theorem all_imp (p q : Event → Bool) (l : List Event)
    (himp : ∀ e, p e = true → q e = true) (h : l.all p = true) :
    l.all q = true := by
  induction l with
  | nil => rfl
  | cons e t ih =>
      simp only [List.all_cons, Bool.and_eq_true] at h ⊢
      exact ⟨himp e h.1, ih h.2⟩

theorem noSGBefore_self (b : List Event)
    (hb : b.all (fun e => !(isLBDelete e || isPortDelete e)) = true) :
    existsSGDeleteBeforeLBOrPortDelete b = false := by
  induction b with
  | nil => rfl
  | cons e t ih =>
      simp only [List.all_cons, Bool.and_eq_true] at hb
      simp only [existsSGDeleteBeforeLBOrPortDelete, Bool.or_eq_false_iff,
        Bool.and_eq_false_iff]
      exact ⟨Or.inr (any_false_of_all_not _ t hb.2), ih hb.2⟩

theorem noSGBefore_append (a b : List Event)
    (ha : a.all (fun e => !isSGDelete e) = true)
    (hb : b.all (fun e => !(isLBDelete e || isPortDelete e)) = true) :
    existsSGDeleteBeforeLBOrPortDelete (a ++ b) = false := by
  induction a with
  | nil => exact noSGBefore_self b hb
  | cons e t ih =>
      simp only [List.all_cons, Bool.and_eq_true, Bool.not_eq_true'] at ha
      simp only [List.cons_append, existsSGDeleteBeforeLBOrPortDelete,
        ha.1, Bool.false_and, Bool.false_or]
      exact ih ha.2

theorem lbPhase_not_sg (e : Event) (h : lbPhase e = true) :
    (!isSGDelete e) = true := by
  cases e <;> simp_all [lbPhase, isSGDelete]

theorem portPhase_not_sg (e : Event) (h : portPhase e = true) :
    (!isSGDelete e) = true := by
  cases e <;> simp_all [portPhase, isSGDelete]

theorem fipPhase_not_sg (e : Event) (h : fipPhase e = true) :
    (!isSGDelete e) = true := by
  cases e <;> simp_all [fipPhase, isSGDelete]

theorem sgPhase_not_lb_port (e : Event) (h : sgPhase e = true) :
    (!(isLBDelete e || isPortDelete e)) = true := by
  cases e <;> simp_all [sgPhase, isLBDelete, isPortDelete]

/-! ## Sublist lemma: every candidate's delete request is issued -/

theorem lb_deletes_sublist (del : String → DeleteResult)
    (polls : String → List PollResponse) (cands : List LoadBalancer) :
    List.Sublist (cands.map (fun lb => Event.deleteLB lb.id))
      (cands.flatMap (lbStepEvents del polls)) := by
  induction cands with
  | nil => simp
  | cons lb rest ih =>
      rw [List.map_cons, List.flatMap_cons]
      have hhead : ∃ t, lbStepEvents del polls lb = Event.deleteLB lb.id :: t := by
        simp only [lbStepEvents]
        cases del lb.id with
        | ok s =>
            by_cases h : (isSuccessStatus s || s == 404) = true
            · exact ⟨(wait_for_lb_deletion lb.id (polls lb.id)).1, by simp [h]⟩
            · exact ⟨[], by simp [h]⟩
        | err => exact ⟨[], rfl⟩
      obtain ⟨t, ht⟩ := hhead
      rw [ht, List.cons_append]
      exact List.Sublist.cons₂ _
        (ih.trans (List.sublist_append_right t _))

end ImDeploy

namespace ImDeploy

/-! ## C1: the load-balancer candidate set -/

/-- Count of an element in a filtered list. -/
theorem count_filter_eq {α : Type} [DecidableEq α] (p : α → Bool)
    (l : List α) (a : α) :
    (l.filter p).count a = if p a then l.count a else 0 := by
  induction l with
  | nil => simp
  | cons b t ih =>
      by_cases hb : p b
      · simp only [List.filter_cons, hb, if_true]
        by_cases hab : a = b
        · subst hab
          simp [List.count_cons, ih, hb]
        · simp [List.count_cons, Ne.symm hab, ih]
      · simp only [List.filter_cons, hb]
        by_cases hab : a = b
        · subst hab
          simp [List.count_cons, ih, hb]
        · simp [List.count_cons, Ne.symm hab, ih]

/-- C1: the deletion candidate set computed by `cleanup_loadbalancers`
contains exactly the load balancers on the target network whose name
starts with `kube_service_` or `kube-` and does not end with `-lb`
(so a name ending in `-lb` is never a candidate), and each qualifying
load balancer occurs in the candidate set exactly as often as in the
API response — in particular exactly once when listed once. -/
theorem c1_lb_candidate_set (lbs : List LoadBalancer) (networkId : String)
    (lb : LoadBalancer) :
    (lb ∈ lbDeletionCandidates lbs networkId ↔
      lb ∈ lbs ∧ lb.vip_network_id = networkId
        ∧ (strStartsWith lb.name "kube_service_" = true
            ∨ strStartsWith lb.name "kube-" = true)
        ∧ strEndsWith lb.name "-lb" = false)
    ∧ ((lbDeletionCandidates lbs networkId).count lb
        = if lbCandidateFilter networkId lb then lbs.count lb else 0) := by
  constructor
  · constructor
    · intro h
      rw [lbDeletionCandidates, List.mem_filter] at h
      obtain ⟨hmem, hfilt⟩ := h
      rw [lbCandidateFilter] at hfilt
      simp only [Bool.and_eq_true, Bool.or_eq_true, Bool.not_eq_true',
        beq_iff_eq] at hfilt
      exact ⟨hmem, hfilt.1.1, hfilt.1.2, hfilt.2⟩
    · intro ⟨hmem, hnet, hname, hend⟩
      rw [lbDeletionCandidates, List.mem_filter]
      refine ⟨hmem, ?_⟩
      rw [lbCandidateFilter]
      simp only [Bool.and_eq_true, Bool.or_eq_true, Bool.not_eq_true',
        beq_iff_eq]
      exact ⟨⟨hnet, hname⟩, hend⟩
  · exact count_filter_eq (lbCandidateFilter networkId) lbs lb

end ImDeploy

namespace ImDeploy

/-! ## C2: the deletion ordering of a full destroy run -/

/-- A concrete run: no load balancers, one orphaned floating IP and one
Octavia-owned port left for the post-destroy pass. -/
def oracleEx : Oracle where
  lbList := .ok []
  lbDelete := fun _ => .err
  lbPolls := fun _ => []
  lbList2 := .ok []
  netPortList := .ok []
  portList := .ok [⟨"p1", "octavia-lb-abc", "Octavia", "net1"⟩]
  portDelete := fun _ => .ok 204
  fipList := .ok [⟨"f1", "1.2.3.4", "DOWN", none⟩]
  fipDelete := fun _ => .ok 204
  sgList := .ok []
  sgDelete := fun _ => .ok 204

/-- C2 counterexample: in a full destroy run the floating-IP delete of
`cleanup_after_destroy` is issued BEFORE the load-balancer port delete
of the same run, refuting "no floating-IP delete request is issued
before the port delete requests of the same run". -/
theorem c2_counterexample :
    existsFipDeleteBeforePortDelete
      (fullDestroyTrace oracleEx "net1" "cluster") = true := by
  decide

/-- C2 amended: across one full destroy run the deletion requests are
issued in the order load balancers (with polling) → pre-destroy Octavia
network ports → floating IPs → post-destroy load-balancer ports →
security groups: the trace splits into five segments homogeneous in
those phases.  The floating-IP deletes of `cleanup_after_destroy`
precede its port deletes, not the other way round. -/
theorem c2_destroy_run_order (o : Oracle) (networkId clusterName : String) :
    ∃ t1 t2 t3 t4 t5 : List Event,
      fullDestroyTrace o networkId clusterName
          = t1 ++ t2 ++ t3 ++ t4 ++ t5
        ∧ t1.all lbPhase = true ∧ t2.all portPhase = true
        ∧ t3.all fipPhase = true ∧ t4.all portPhase = true
        ∧ t5.all sgPhase = true :=
  destroyTrace_phases o networkId clusterName

/-! ## C3: security-group deletes come last -/

/-- C3: for every sequence of API responses, no security-group delete
request of a destroy reconciliation run is issued before any
load-balancer or port delete request of the same run: the security
group step of `cleanup_after_destroy` runs strictly after the
load-balancer, port and floating-IP deletion steps. -/
theorem c3_no_sg_delete_before_lb_or_port (o : Oracle)
    (networkId clusterName : String) :
    existsSGDeleteBeforeLBOrPortDelete
      (fullDestroyTrace o networkId clusterName) = false := by
  obtain ⟨t1, t2, t3, t4, t5, heq, h1, h2, h3, h4, h5⟩ :=
    destroyTrace_phases o networkId clusterName
  rw [heq]
  have hregroup : t1 ++ t2 ++ t3 ++ t4 ++ t5
      = (t1 ++ (t2 ++ (t3 ++ t4))) ++ t5 := by
    simp [List.append_assoc]
  rw [hregroup]
  refine noSGBefore_append _ _ ?_ (all_imp _ _ _ sgPhase_not_lb_port h5)
  simp only [List.all_append, Bool.and_eq_true]
  exact ⟨all_imp _ _ _ lbPhase_not_sg h1,
    all_imp _ _ _ portPhase_not_sg h2,
    all_imp _ _ _ fipPhase_not_sg h3,
    all_imp _ _ _ portPhase_not_sg h4⟩

/-! ## C4: the deletion poll and its failure isolation -/

/-- C4: `wait_for_lb_deletion` succeeds exactly when some poll within
the timeout budget observes a terminal response (a 404, or a success
response whose provisioning_status is DELETED or ERROR); with no such
observation it reports the timeout failure.  A poll failure never
prevents `cleanup_loadbalancers` from attempting the remaining
candidates: the run stays `Ok`, a delete request is issued for every
candidate in order, and failures are only counted — deleted plus failed
always equals the number of candidates. -/
theorem c4_poll_terminal_and_continue (lbId : String)
    (polls : List PollResponse) (lbs : List LoadBalancer)
    (del : String → DeleteResult) (pollsF : String → List PollResponse)
    (networkId : String) :
    ((wait_for_lb_deletion lbId polls).2 = polls.any pollTerminal)
    ∧ (cleanup_loadbalancers (.ok lbs) del pollsF networkId).ok = true
    ∧ List.Sublist
        ((lbDeletionCandidates lbs networkId).map
          (fun lb => Event.deleteLB lb.id))
        (cleanup_loadbalancers (.ok lbs) del pollsF networkId).trace
    ∧ (cleanup_loadbalancers (.ok lbs) del pollsF networkId).deleted
        + (cleanup_loadbalancers (.ok lbs) del pollsF networkId).failed
      = (lbDeletionCandidates lbs networkId).length := by
  refine ⟨?_, rfl, ?_, ?_⟩
  · induction polls with
    | nil => rfl
    | cons p rest ih =>
        simp only [wait_for_lb_deletion, List.any_cons]
        by_cases h : pollTerminal p = true
        · simp [h]
        · simp [h, ih]
  · simp only [cleanup_loadbalancers, lbLoop_trace, List.nil_append]
    exact (lb_deletes_sublist del pollsF _).cons _
  · simp only [cleanup_loadbalancers]
    rw [lbLoop_count]
    simp

/-! ## C5: every candidate is attempted, the call still returns Ok -/

/-- C5: for every resource type and every combination of per-delete
outcomes (any non-2xx/non-404 status or transport error on individual
deletes), the cleanup function issues a delete request for every
candidate in its set — the trace lists them all, in order — and still
returns `Ok`; failures only increment the failure counter, with
deleted + failed equal to the candidate count. -/
theorem c5_bulkhead_per_resource
    (fips : List FloatingIP) (delF : String → DeleteResult)
    (ports : List Port) (delP : String → DeleteResult)
    (lbs2 : List LoadBalancer) (nports : List Port)
    (delO : String → DeleteResult)
    (sgs : List SecurityGroup) (delS : String → DeleteResult)
    (lbs : List LoadBalancer) (delL : String → DeleteResult)
    (pollsF : String → List PollResponse) (networkId clusterName : String) :
    ((cleanup_floating_ips (.ok fips) delF).ok = true
      ∧ (cleanup_floating_ips (.ok fips) delF).trace
          = Event.listFips
              :: ((fips.filter fipOrphanFilter).map (·.id)).map Event.deleteFip
      ∧ (cleanup_floating_ips (.ok fips) delF).deleted
            + (cleanup_floating_ips (.ok fips) delF).failed
          = (fips.filter fipOrphanFilter).length)
    ∧ ((cleanup_loadbalancer_ports (.ok ports) delP).ok = true
      ∧ (cleanup_loadbalancer_ports (.ok ports) delP).trace
          = Event.listPorts
              :: ((ports.filter octaviaOwnerFilter).map (·.id)).map
                Event.deletePort
      ∧ (cleanup_loadbalancer_ports (.ok ports) delP).deleted
            + (cleanup_loadbalancer_ports (.ok ports) delP).failed
          = (ports.filter octaviaOwnerFilter).length)
    ∧ ((cleanup_octavia_ports (.ok lbs2) (.ok nports) delO networkId).ok = true
      ∧ (cleanup_octavia_ports (.ok lbs2) (.ok nports) delO networkId).trace
          = Event.listLBs :: Event.listPorts
              :: ((nports.filter
                    (octaviaPortCandidateFilter
                      (terraformLbIds (.ok lbs2) networkId))).map (·.id)).map
                Event.deletePort
      ∧ (cleanup_octavia_ports (.ok lbs2) (.ok nports) delO networkId).deleted
            + (cleanup_octavia_ports (.ok lbs2) (.ok nports) delO
                networkId).failed
          = (nports.filter
              (octaviaPortCandidateFilter
                (terraformLbIds (.ok lbs2) networkId))).length)
    ∧ ((cleanup_security_groups (.ok sgs) delS clusterName).ok = true
      ∧ (cleanup_security_groups (.ok sgs) delS clusterName).trace
          = Event.listSGs
              :: ((sgs.filter (sgOrphanFilter clusterName)).map (·.id)).map
                Event.deleteSG
      ∧ (cleanup_security_groups (.ok sgs) delS clusterName).deleted
            + (cleanup_security_groups (.ok sgs) delS clusterName).failed
          = (sgs.filter (sgOrphanFilter clusterName)).length)
    ∧ ((cleanup_loadbalancers (.ok lbs) delL pollsF networkId).ok = true
      ∧ (cleanup_loadbalancers (.ok lbs) delL pollsF networkId).deleted
            + (cleanup_loadbalancers (.ok lbs) delL pollsF networkId).failed
          = (lbDeletionCandidates lbs networkId).length) := by
  refine ⟨⟨rfl, ?_, ?_⟩, ⟨rfl, ?_, ?_⟩, ⟨rfl, ?_, ?_⟩, ⟨rfl, ?_, ?_⟩,
    rfl, ?_⟩
  · simp [cleanup_floating_ips, runDeleteLoop_trace]
  · simp only [cleanup_floating_ips]
    rw [runDeleteLoop_count]
    simp
  · simp [cleanup_loadbalancer_ports, runDeleteLoop_trace]
  · simp only [cleanup_loadbalancer_ports]
    rw [runDeleteLoop_count]
    simp
  · simp [cleanup_octavia_ports, runDeleteLoop_trace]
  · simp only [cleanup_octavia_ports]
    rw [runDeleteLoop_count]
    simp
  · simp [cleanup_security_groups, runDeleteLoop_trace]
  · simp only [cleanup_security_groups]
    rw [runDeleteLoop_count]
    simp
  · simp only [cleanup_loadbalancers]
    rw [lbLoop_count]
    simp

/-! ## C6: the protected-set failure modes of cleanup_octavia_ports -/

/-- An Octavia-owned port whose name references a Terraform LB id. -/
def tfPortEx : Port := ⟨"p1", "octavia-lb-abc", "Octavia", "net1"⟩

/-- C6 counterexample: when the load-balancer list request FAILS (a
transport error), `cleanup_octavia_ports` propagates the error and
issues no port delete at all — the Octavia-owned port does NOT become a
deletion candidate, refuting the claim that a failing list request
makes every Octavia-owned port a candidate. -/
theorem c6_counterexample :
    octaviaOwnerFilter tfPortEx = true
    ∧ (cleanup_octavia_ports .transportErr (.ok [tfPortEx])
          (fun _ => .ok 204) "net1").trace.any isPortDelete = false
    ∧ (cleanup_octavia_ports .transportErr (.ok [tfPortEx])
          (fun _ => .ok 204) "net1").ok = false := by
  refine ⟨by decide, rfl, rfl⟩

/-- C6 amended: when the load-balancer list request returns a
non-success status, or its body fails to parse, the protected set of
Terraform load-balancer ids is left empty and every Octavia-owned port
in the listed set — including ports of Terraform-owned `-lb` load
balancers — receives a delete request; when the list request fails at
the transport level, `cleanup_octavia_ports` instead returns an error
before listing ports and deletes nothing. -/
theorem c6_protected_set_failure_modes (c : Nat) (ports : List Port)
    (del : String → DeleteResult) (networkId : String) :
    terraformLbIds (.httpFail c) networkId = []
    ∧ terraformLbIds .parseFail networkId = []
    ∧ (cleanup_octavia_ports (.httpFail c) (.ok ports) del networkId).trace
        = Event.listLBs :: Event.listPorts
            :: ((ports.filter octaviaOwnerFilter).map (·.id)).map
              Event.deletePort
    ∧ (cleanup_octavia_ports .parseFail (.ok ports) del networkId).trace
        = Event.listLBs :: Event.listPorts
            :: ((ports.filter octaviaOwnerFilter).map (·.id)).map
              Event.deletePort
    ∧ (cleanup_octavia_ports .transportErr (.ok ports) del networkId).trace
        = [Event.listLBs]
    ∧ (cleanup_octavia_ports .transportErr (.ok ports) del networkId).ok
        = false := by
  have hfilt : ports.filter (octaviaPortCandidateFilter [])
      = ports.filter octaviaOwnerFilter := by
    apply List.filter_congr
    intro p _
    simp [octaviaPortCandidateFilter]
  refine ⟨rfl, rfl, ?_, ?_, rfl, rfl⟩
  · simp [cleanup_octavia_ports, terraformLbIds, runDeleteLoop_trace, hfilt]
  · simp [cleanup_octavia_ports, terraformLbIds, runDeleteLoop_trace, hfilt]

end ImDeploy

namespace ImDeploy

/-! ## C7: TLS settings of OpenStackClient::new -/

/-- What the HTTP client is built with. -/
structure TlsSettings where
  accept_invalid_certs : Bool
  root_certs : List String
  files_read : List String
deriving DecidableEq, Repr

/-- The certificate-validation branch of `OpenStackClient::new`
(openstack.rs:165-178): `insecure` switches on acceptance of invalid
certificates; otherwise a given `cacert_file` is read (`fs::read`,
which may fail) and parsed (`reqwest::Certificate::from_pem`, which may
fail) and the certificate added as a root certificate.  `readFile` and
`pemParse` stand for the filesystem and the PEM parser; `files_read`
records every file the function reads. -/
def build_client_tls (insecure : Bool) (cacert_file : Option String)
    (readFile : String → Option String) (pemParse : String → Option String) :
    Except String TlsSettings :=
  if insecure then
    .ok ⟨true, [], []⟩
  else
    match cacert_file with
    | some cert_path =>
        match readFile cert_path with
        | none => .error ("Failed to read CA certificate from " ++ cert_path)
        | some cert_data =>
            match pemParse cert_data with
            | none => .error "invalid PEM certificate"
            | some cert => .ok ⟨false, [cert], [cert_path]⟩
    | none => .ok ⟨false, [], []⟩

/-- C7: with `insecure = true` the client accepts invalid certificates
and the cacert file is never read (no file is touched) even when a
cacert path is provided — `insecure` takes precedence; with
`insecure = false` and a cacert path whose file reads and parses, the
certificate is added as a root certificate. -/
theorem c7_insecure_precedence (cacert_file : Option String)
    (readFile pemParse : String → Option String) (p d c : String) :
    build_client_tls true cacert_file readFile pemParse = .ok ⟨true, [], []⟩
    ∧ (readFile p = some d → pemParse d = some c →
        build_client_tls false (some p) readFile pemParse
          = .ok ⟨false, [c], [p]⟩) := by
  refine ⟨rfl, fun h1 h2 => ?_⟩
  simp [build_client_tls, h1, h2]

theorem c7_witness :
    build_client_tls true (some "ca.pem") (fun _ => some "PEMDATA")
        (fun _ => some "CERT") = .ok ⟨true, [], []⟩
    ∧ build_client_tls false (some "ca.pem") (fun _ => some "PEMDATA")
        (fun _ => some "CERT") = .ok ⟨false, ["CERT"], ["ca.pem"]⟩ :=
  ⟨(c7_insecure_precedence (some "ca.pem") (fun _ => some "PEMDATA")
      (fun _ => some "CERT") "ca.pem" "PEMDATA" "CERT").1,
   (c7_insecure_precedence (some "ca.pem") (fun _ => some "PEMDATA")
      (fun _ => some "CERT") "ca.pem" "PEMDATA" "CERT").2 rfl rfl⟩

/-! ## C8: connection strategy resolution -/

/-- `ServerInfo` (domain/cluster.rs:4-9, also tui.rs). -/
structure ServerInfo where
  name : String
  ip : String
  cloud_provider : String
  tailscale_hostname : Option String
deriving DecidableEq, Repr

/-- `ConnectionStrategy` (domain/connection.rs:7-11). -/
inductive ConnectionStrategy where
  | tailscale (hostname : String)
  | bastion (bastion_ip : String) (target_ip : String)
deriving DecidableEq, Repr

/-- `SshError::NoConnectionMethod` (errors.rs). -/
inductive SshErr where
  | noConnectionMethod
deriving DecidableEq, Repr

/-- `ConnectionStrategy::from_server` (connection.rs:14-27). -/
def ConnectionStrategy.from_server (server : ServerInfo)
    (bastion_ip : Option String) : Except SshErr ConnectionStrategy :=
  match server.tailscale_hostname with
  | some hostname => .ok (.tailscale hostname)
  | none =>
      match bastion_ip with
      | some bip => .ok (.bastion bip server.ip)
      | none => .error .noConnectionMethod

/-- C8: a server with a (non-empty) Tailscale hostname resolves to the
Tailscale strategy even when a bastion IP is present; with no hostname
and a bastion IP it resolves to the Bastion strategy carrying that
bastion IP and the server's own IP; with neither it yields the
no-connection-method error. -/
theorem c8_connection_strategy (server : ServerInfo) (h b : String) :
    (server.tailscale_hostname = some h → h ≠ "" →
      ConnectionStrategy.from_server server (some b)
        = .ok (.tailscale h))
    ∧ (server.tailscale_hostname = none →
      ConnectionStrategy.from_server server (some b)
        = .ok (.bastion b server.ip))
    ∧ (server.tailscale_hostname = none →
      ConnectionStrategy.from_server server none
        = .error .noConnectionMethod) := by
  refine ⟨fun h1 _ => ?_, fun h1 => ?_, fun h1 => ?_⟩ <;>
    simp [ConnectionStrategy.from_server, h1]

theorem c8_witness :
    ConnectionStrategy.from_server
        ⟨"k3s-server-0", "10.0.0.10", "openstack", some "srv-0.ts.net"⟩
        (some "1.2.3.4") = .ok (.tailscale "srv-0.ts.net")
    ∧ ConnectionStrategy.from_server
        ⟨"k3s-server-0", "10.0.0.10", "openstack", none⟩
        (some "1.2.3.4") = .ok (.bastion "1.2.3.4" "10.0.0.10")
    ∧ ConnectionStrategy.from_server
        ⟨"k3s-server-0", "10.0.0.10", "openstack", none⟩
        none = .error .noConnectionMethod :=
  ⟨(c8_connection_strategy
      ⟨"k3s-server-0", "10.0.0.10", "openstack", some "srv-0.ts.net"⟩
      "srv-0.ts.net" "1.2.3.4").1 rfl (by decide),
   (c8_connection_strategy
      ⟨"k3s-server-0", "10.0.0.10", "openstack", none⟩
      "" "1.2.3.4").2.1 rfl,
   (c8_connection_strategy
      ⟨"k3s-server-0", "10.0.0.10", "openstack", none⟩
      "" "1.2.3.4").2.2 rfl⟩

/-! ## C9: the kubeconfig server-host rewrite -/

def serverPat : List Char := "server: https://".data

def portPat : List Char := ":6443".data

/-- Rust `str::find` (first occurrence index of a pattern), on
character lists. -/
def findSub (pat : List Char) : List Char → Option Nat
  | [] => if pat.isPrefixOf ([] : List Char) then some 0 else none
  | c :: rest =>
      if pat.isPrefixOf (c :: rest) then some 0
      else (findSub pat rest).map (· + 1)

/-- The kubeconfig rewrite of `cmd_copy_kubeconfig`
(commands.rs:616-629): find the first `server: https://`, keep
everything up to and including it, replace what follows up to the first
subsequent `:6443` by the load-balancer floating IP, keep the rest.
Rust's byte indices become character indices, used only as split
points. -/
def rewrite_server_host (kc ip : List Char) : List Char :=
  match findSub serverPat kc with
  | none => kc
  | some start =>
      let pre := kc.take (start + 16)
      let rest := kc.drop (start + 16)
      match findSub portPat rest with
      | none => kc
      | some portPos => pre ++ ip ++ rest.drop portPos

/-- C9: on a kubeconfig whose first `server: https://` occurrence sits
right after `pre` and whose host ends at the first following `:6443`,
the rewrite replaces exactly the host with the floating IP and leaves
every other character unchanged. -/
theorem c9_kubeconfig_rewrite (pre host post ip : List Char)
    (h1 : findSub serverPat (pre ++ serverPat ++ host ++ portPat ++ post)
        = some pre.length)
    (h2 : findSub portPat (host ++ portPat ++ post) = some host.length) :
    rewrite_server_host (pre ++ serverPat ++ host ++ portPat ++ post) ip
      = pre ++ serverPat ++ ip ++ portPat ++ post := by
  have hassoc : pre ++ serverPat ++ host ++ portPat ++ post
      = (pre ++ serverPat) ++ (host ++ portPat ++ post) := by
    simp [List.append_assoc]
  have hlen : (pre ++ serverPat).length = pre.length + 16 := by
    rw [List.length_append]
    rfl
  have htake : (pre ++ serverPat ++ host ++ portPat ++ post).take
      (pre.length + 16) = pre ++ serverPat := by
    rw [hassoc, List.take_left' hlen]
  have hdrop : (pre ++ serverPat ++ host ++ portPat ++ post).drop
      (pre.length + 16) = host ++ portPat ++ post := by
    rw [hassoc, List.drop_left' hlen]
  have hassoc2 : host ++ portPat ++ post = host ++ (portPat ++ post) := by
    simp [List.append_assoc]
  have hdrop2 : (host ++ portPat ++ post).drop host.length
      = portPat ++ post := by
    rw [hassoc2, List.drop_left]
  simp only [rewrite_server_host, h1, htake, hdrop, h2, hdrop2]
  simp [List.append_assoc]

theorem c9_witness :
    rewrite_server_host
        ("apiVersion: v1\n    ".data ++ serverPat ++ "10.0.0.5".data
          ++ portPat ++ "\n  name: x".data)
        "5.6.7.8".data
      = "apiVersion: v1\n    ".data ++ serverPat ++ "5.6.7.8".data
          ++ portPat ++ "\n  name: x".data :=
  c9_kubeconfig_rewrite "apiVersion: v1\n    ".data "10.0.0.5".data
    "\n  name: x".data "5.6.7.8".data (by decide) (by decide)

end ImDeploy

namespace ImDeploy

/-! ## C10: terraform output extraction -/

/-- A serde_json value, restricted to the shapes terraform outputs
use. -/
inductive Json where
  | null
  | bool (b : Bool)
  | str (s : String)
  | num (n : Int)
  | arr (items : List Json)
  | obj (fields : List (String × Json))

/-- serde_json `Value::get(key)`: object field lookup. -/
def Json.get (j : Json) (key : String) : Option Json :=
  match j with
  | .obj fields => fields.lookup key
  | _ => none

def Json.asStr : Json → Option String
  | .str s => some s
  | _ => none

def Json.asBool : Json → Option Bool
  | .bool b => some b
  | _ => none

def Json.asArray : Json → Option (List Json)
  | .arr items => some items
  | _ => none

def Json.isNull : Json → Bool
  | .null => true
  | _ => false

/-- `CloudProvider` (domain/cluster.rs:22-27, also tui.rs). -/
structure CloudProvider where
  name : String
  bastion_ip : Option String
  tailscale_enabled : Bool
  servers : List ServerInfo
deriving DecidableEq, Repr

/-- One of the two enumerate loops of `extract_cloud_providers`
(commands.rs:136-171): entries are named from the enumerate index, a
non-string ip is skipped, and the Tailscale hostname is looked up at
the same index of the hostname array when one is available. -/
def mkNodeEntries (namePre : String) (ts : Option (List Json))
    (ips : List Json) : List ServerInfo :=
  ips.enum.filterMap (fun p =>
    match (p.2).asStr with
    | none => none
    | some ipStr =>
        some ⟨namePre ++ toString p.1, ipStr, "openstack",
          (ts.bind (fun arr => arr[p.1]?)).bind Json.asStr⟩)

/-- `extract_cloud_providers` (commands.rs:91-189), applied to the
parsed terraform output JSON. -/
def extract_cloud_providers (outputs : Json) :
    Except String (List CloudProvider) :=
  let tailscale_enabled :=
    (((outputs.get "tailscale_enabled").bind (fun v => v.get "value")).bind
      Json.asBool).getD false
  let tailscale_hostnames :=
    (outputs.get "tailscale_hostnames").bind (fun v => v.get "value")
  let cloud_providers :=
    match (outputs.get "openstack_cluster").bind (fun v => v.get "value") with
    | none => ([] : List CloudProvider)
    | some openstack_cluster =>
        if openstack_cluster.isNull then [] else
          let bastion_ip := (openstack_cluster.get "bastion_ip").bind Json.asStr
          let ts_servers :=
            if tailscale_enabled then
              (tailscale_hostnames.bind
                (fun v => v.get "openstack_servers")).bind Json.asArray
            else none
          let ts_agents :=
            if tailscale_enabled then
              (tailscale_hostnames.bind
                (fun v => v.get "openstack_agents")).bind Json.asArray
            else none
          let servers :=
            (match (openstack_cluster.get "server_ips").bind Json.asArray with
              | none => []
              | some server_ips =>
                  mkNodeEntries "k3s-server-" ts_servers server_ips)
            ++ (match (openstack_cluster.get "agent_ips").bind Json.asArray with
              | none => []
              | some agent_ips => mkNodeEntries "k3s-agent-" ts_agents agent_ips)
          if servers.isEmpty then []
          else [⟨"OpenStack", bastion_ip, tailscale_enabled, servers⟩]
  if cloud_providers.isEmpty then
    .error
      "No cloud providers found in terraform outputs. Has the cluster been deployed?"
  else .ok cloud_providers

/-- The terraform output shape of the C10 scenario: three server IPs,
two agent IPs, Tailscale enabled, index-aligned hostname arrays. -/
def outputsC10 (h0 h1 h2 a0 a1 : String) : Json :=
  .obj [
    ("tailscale_enabled", .obj [("value", .bool true)]),
    ("tailscale_hostnames", .obj [("value", .obj [
        ("openstack_servers", .arr [.str h0, .str h1, .str h2]),
        ("openstack_agents", .arr [.str a0, .str a1])])]),
    ("openstack_cluster", .obj [("value", .obj [
        ("server_ips",
          .arr [.str "10.0.1.10", .str "10.0.1.11", .str "10.0.1.12"]),
        ("agent_ips", .arr [.str "10.0.2.10", .str "10.0.2.11"])])])]

/-- C10: on terraform outputs with the three given server IPs, the two
given agent IPs, tailscale_enabled true and index-aligned hostname
arrays, `extract_cloud_providers` yields exactly one provider with
three server entries `k3s-server-0..2` and two agent entries
`k3s-agent-0..1`, each carrying the Tailscale hostname at its own
index. -/
theorem c10_extract_cloud_providers (h0 h1 h2 a0 a1 : String) :
    extract_cloud_providers (outputsC10 h0 h1 h2 a0 a1)
      = .ok [⟨"OpenStack", none, true,
          [⟨"k3s-server-0", "10.0.1.10", "openstack", some h0⟩,
           ⟨"k3s-server-1", "10.0.1.11", "openstack", some h1⟩,
           ⟨"k3s-server-2", "10.0.1.12", "openstack", some h2⟩,
           ⟨"k3s-agent-0", "10.0.2.10", "openstack", some a0⟩,
           ⟨"k3s-agent-1", "10.0.2.11", "openstack", some a1⟩]⟩] := by
  rfl

end ImDeploy
